import Mathlib

/-!
Verification of the HealthCareLytics analysis engine (`src/analytics.py`).

The embedding models a pandas `DataFrame` as an explicit column list plus a
list of rows (each row a list of cell values), and translates `run_analysis`
branch by branch.  Cell values are numbers (ℚ), text, day-precision
timestamps, or the missing marker (pandas `NaN`/`NaT`/`None`).

Rational arithmetic is performed through `mkRat`-based helpers (`ratAdd`,
`ratNeg`, `ratDivNat`, `ratSum`) so that every definition evaluates inside
the kernel; the theorems `ratAdd_eq`, `ratNeg_eq`, `ratDivNat_eq` and
`ratSum_eq` prove they agree with the standard field operations on ℚ.
-/

namespace HealthCareLytics

/-- A cell of a loaded dataset: a number, a text value, a day-precision
timestamp, or the missing marker (`NaN`/`NaT`/`None` in pandas). -/
inductive Value where
  | num (q : ℚ)
  | str (s : String)
  | date (y m d : ℕ)
  | missing
deriving DecidableEq

/-- A pandas DataFrame: an explicit column-name list and a list of rows.
Each row lists its cells in column order. -/
structure DataFrame where
  cols : List String
  rows : List (List Value)
deriving DecidableEq

/-- Index of a column name in the column list (first occurrence). -/
def colIdx (cols : List String) (c : String) : ℕ :=
  cols.findIdx (fun x => x = c)

/-- The cell of row `r` in column `c` (missing when the row is too short). -/
def cellAt (cols : List String) (c : String) (r : List Value) : Value :=
  r.getD (colIdx cols c) Value.missing

/-- The column `c` of a DataFrame, as the list of its cells in row order. -/
def DataFrame.col (df : DataFrame) (c : String) : List Value :=
  df.rows.map (cellAt df.cols c)

/-- Kernel-computable addition on ℚ; agrees with `+` by `ratAdd_eq`. -/
def ratAdd (a b : ℚ) : ℚ :=
  mkRat (a.num * b.den + b.num * a.den) (a.den * b.den)

/-- Kernel-computable negation on ℚ; agrees with `-·` by `ratNeg_eq`. -/
def ratNeg (a : ℚ) : ℚ :=
  mkRat (-a.num) a.den

/-- Kernel-computable division of a ℚ by a ℕ; agrees with `/` by
`ratDivNat_eq`. -/
def ratDivNat (a : ℚ) (n : ℕ) : ℚ :=
  mkRat a.num (a.den * n)

/-- Kernel-computable list sum on ℚ; agrees with `List.sum` by `ratSum_eq`. -/
def ratSum : List ℚ → ℚ
  | [] => 0
  | x :: xs => ratAdd x (ratSum xs)

/-- Value of a nonempty all-digit character list, `none` otherwise. -/
def digitsVal? (cs : List Char) : Option ℕ :=
  if cs ≠ [] ∧ cs.all Char.isDigit then
    some (cs.foldl (fun a c => a * 10 + (c.toNat - 48)) 0)
  else none

/-- Split a character list on a separator character (like `String.splitOn`
with a one-character separator). -/
def splitOnChar (ch : Char) : List Char → List (List Char)
  | [] => [[]]
  | c :: cs =>
    let r := splitOnChar ch cs
    if c = ch then [] :: r
    else
      match r with
      | [] => [[c]]
      | h :: t => (c :: h) :: t

/-- Parse an unsigned decimal numeral (`"10"`, `"2.5"`) as a rational. -/
def parseUnsignedRat? (cs : List Char) : Option ℚ :=
  match splitOnChar '.' cs with
  | [ip] => (digitsVal? ip).map (fun n => (n : ℚ))
  | [ip, fp] =>
    match digitsVal? ip, digitsVal? fp with
    | some n, some f => some (ratAdd (n : ℚ) (mkRat f (10 ^ fp.length)))
    | _, _ => none
  | _ => none

/-- Parse a signed decimal numeral as a rational, `none` on failure. -/
def parseRat? (s : String) : Option ℚ :=
  match s.toList with
  | '-' :: rest => (parseUnsignedRat? rest).map ratNeg
  | cs => parseUnsignedRat? cs

/-- `pd.to_numeric(value, errors="coerce")` applied to one cell: numbers pass
through, numeric text parses, everything else coerces to missing (`NaN`). -/
def coerceNum? : Value → Option ℚ
  | .num q => some q
  | .str s => parseRat? s
  | .date _ _ _ => none
  | .missing => none

/-- Parse an ISO `YYYY-MM-DD` date string into year, month, day. -/
def parseYMD? (s : String) : Option (ℕ × ℕ × ℕ) :=
  match splitOnChar '-' s.toList with
  | [ys, ms, ds] =>
    match digitsVal? ys, digitsVal? ms, digitsVal? ds with
    | some y, some m, some d =>
      if 1 ≤ m ∧ m ≤ 12 ∧ 1 ≤ d ∧ d ≤ 31 then some (y, m, d) else none
    | _, _, _ => none
  | _ => none

/-- `pd.to_datetime(value, errors="coerce")` applied to one cell, modelled
for ISO `YYYY-MM-DD` date strings: timestamps pass through, date strings
parse, everything else coerces to missing (`NaT`). -/
def toDatetime : Value → Value
  | .date y m d => .date y m d
  | .str s =>
    match parseYMD? s with
    | some (y, m, d) => .date y m d
    | none => .missing
  | _ => .missing

/-- A text value as its list of character codes (for lexicographic order). -/
def strEnc (s : String) : List ℕ :=
  s.toList.map Char.toNat

/-- Encoding of a cell into a lexicographic linear order, giving the sort
order pandas `groupby(sort=True)` uses on group keys: numbers numerically,
text lexicographically, timestamps chronologically. -/
def valEnc (v : Value) : ℕ ×ₗ ℚ ×ₗ List ℕ :=
  match v with
  | .num q => toLex (0, toLex (q, []))
  | .str s => toLex (1, toLex (0, strEnc s))
  | .date y m d => toLex (2, toLex (((y * 10000 + m * 100 + d : ℕ) : ℚ), []))
  | .missing => toLex (3, toLex (0, []))

/-- Ascending order on group keys (lexicographic across the key columns). -/
def keyLe (k1 k2 : List Value) : Prop :=
  k1.map valEnc ≤ k2.map valEnc

instance : DecidableRel keyLe := fun k1 k2 =>
  inferInstanceAs (Decidable (k1.map valEnc ≤ k2.map valEnc))

instance : IsTotal (List Value) keyLe :=
  ⟨fun a b => le_total (a.map valEnc) (b.map valEnc)⟩

instance : IsTrans (List Value) keyLe :=
  ⟨fun _ _ _ h1 h2 => le_trans h1 h2⟩

/-- Sort group keys ascending, as pandas `groupby` does with `sort=True`. -/
def sortKeys (l : List (List Value)) : List (List Value) :=
  List.insertionSort keyLe l

/-- The group key of a row for group-by columns `g`: the list of its cells in
those columns, or `none` when any of them is missing (pandas `groupby` drops
rows with a missing key, `dropna=True` default). -/
def keyOf? (cols : List String) (g : List String) (r : List Value) : Option (List Value) :=
  let vs := g.map (fun c => cellAt cols c r)
  if vs.all (fun v => v ≠ Value.missing) then some vs else none

/-- The member rows of the group with key `k`. -/
def groupRows (cols : List String) (g : List String) (rows : List (List Value))
    (k : List Value) : List (List Value) :=
  rows.filter (fun r => keyOf? cols g r = some k)

/-- The distinct group keys of `rows`, in ascending sorted order. -/
def groupKeys (cols : List String) (g : List String) (rows : List (List Value)) :
    List (List Value) :=
  sortKeys (rows.filterMap (keyOf? cols g)).dedup

/-- `df.groupby(g)` followed by per-group aggregation `f` and `reset_index`:
one output row per distinct group key, key columns first (caller order) and
the derived value last, groups sorted ascending by key. -/
def groupAgg (cols : List String) (g : List String) (rows : List (List Value))
    (f : List (List Value) → Value) (aggName : String) : DataFrame :=
  ⟨g ++ [aggName], (groupKeys cols g rows).map (fun k => k ++ [f (groupRows cols g rows k)])⟩

/-- The numeric values of a cell list that survive numeric coercion. -/
def presentNums (vs : List Value) : List ℚ :=
  vs.filterMap coerceNum?

/-- `pd.to_numeric(s, errors="coerce").sum(skipna=True)`: sum of the values
that survive coercion, `0` when none do. -/
def sumAgg (vs : List Value) : Value :=
  .num (ratSum (presentNums vs))

/-- `pd.to_numeric(s, errors="coerce").mean()`: the mean of the surviving
values, missing (`NaN`) when none survive. -/
def meanAgg (vs : List Value) : Value :=
  match presentNums vs with
  | [] => .missing
  | x :: xs => .num (ratDivNat (ratSum (x :: xs)) (x :: xs).length)

/-- `pd.to_numeric(s, errors="coerce").min()`: missing when no value survives. -/
def minAgg (vs : List Value) : Value :=
  match presentNums vs with
  | [] => .missing
  | x :: xs => .num (xs.foldl min x)

/-- `pd.to_numeric(s, errors="coerce").max()`: missing when no value survives. -/
def maxAgg (vs : List Value) : Value :=
  match presentNums vs with
  | [] => .missing
  | x :: xs => .num (xs.foldl max x)

/-- `res.fillna(0)`: replace every missing cell with the number 0. -/
def fillZero (df : DataFrame) : DataFrame :=
  ⟨df.cols, df.rows.map (List.map (fun v => if v = Value.missing then Value.num 0 else v))⟩

/-- Errors `run_analysis` can raise: a pandas `KeyError` for a column absent
from the frame, or the `ValueError("Unsupported operation")` of line 100. -/
inductive AErr where
  | keyError (c : String)
  | unsupported
deriving DecidableEq

instance : DecidableEq (Except AErr DataFrame) := fun x y =>
  match x, y with
  | .ok a, .ok b =>
    if h : a = b then .isTrue (by rw [h]) else .isFalse (by simp [h])
  | .error a, .error b =>
    if h : a = b then .isTrue (by rw [h]) else .isFalse (by simp [h])
  | .ok _, .error _ => .isFalse (by simp)
  | .error _, .ok _ => .isFalse (by simp)

/-- First group-by column absent from the frame, if any (what a pandas
`groupby` call reports as `KeyError`). -/
def findAbsent (cols : List String) (g : List String) : Option String :=
  g.find? (fun c => ¬ c ∈ cols)

/-- `available_operations()` of `analytics.py`. -/
def availableOperations : List String :=
  ["Count", "Sum", "Average", "Min", "Max", "Trend"]

/-- `run_analysis(df, target_col, operation, group_by)` of `analytics.py`.

Notes tying the model to the source:
* lines 26–30 evaluate `df[target_col]` for every operation, so a missing
  target column raises `KeyError` before the operation dispatch;
* each grouped branch calls `df.groupby(...)`, which raises `KeyError` on a
  group-by column absent from the frame and otherwise drops rows with a
  missing group key and sorts group keys ascending;
* in the Trend branch (lines 67–98) the datetime-column detection of line 72
  accepts every column, because `pd.to_datetime(col, errors="coerce")`
  returns a datetime64 series (all-`NaT` at worst) for any column, so
  `dt_cols` is the whole column list and `dt` is the frame's first column;
  the ordinal fallback of lines 95–98 is reachable only for a frame with no
  columns at all, where `df_copy[target_col]` raises `KeyError`. -/
def runAnalysis (df : DataFrame) (targetCol : String) (operation : String)
    (groupBy : List String) : Except AErr DataFrame :=
  if targetCol ∈ df.cols then
    if operation = "Count" then
      if groupBy = [] then .ok ⟨["count"], [[.num (df.rows.length : ℚ)]]⟩
      else
        match findAbsent df.cols groupBy with
        | some c => .error (.keyError c)
        | none =>
          .ok (groupAgg df.cols groupBy df.rows (fun rs => .num (rs.length : ℚ)) "count")
    else if operation = "Sum" then
      if groupBy = [] then .ok ⟨["sum"], [[sumAgg (df.col targetCol)]]⟩
      else
        match findAbsent df.cols groupBy with
        | some c => .error (.keyError c)
        | none =>
          .ok (groupAgg df.cols groupBy df.rows
            (fun rs => sumAgg (rs.map (cellAt df.cols targetCol))) "sum")
    else if operation = "Average" then
      if groupBy = [] then .ok ⟨["mean"], [[meanAgg (df.col targetCol)]]⟩
      else
        match findAbsent df.cols groupBy with
        | some c => .error (.keyError c)
        | none =>
          .ok (groupAgg df.cols groupBy df.rows
            (fun rs => meanAgg (rs.map (cellAt df.cols targetCol))) "mean")
    else if operation = "Min" then
      if groupBy = [] then .ok ⟨["min"], [[minAgg (df.col targetCol)]]⟩
      else
        match findAbsent df.cols groupBy with
        | some c => .error (.keyError c)
        | none =>
          .ok (groupAgg df.cols groupBy df.rows
            (fun rs => minAgg (rs.map (cellAt df.cols targetCol))) "min")
    else if operation = "Max" then
      if groupBy = [] then .ok ⟨["max"], [[maxAgg (df.col targetCol)]]⟩
      else
        match findAbsent df.cols groupBy with
        | some c => .error (.keyError c)
        | none =>
          .ok (groupAgg df.cols groupBy df.rows
            (fun rs => maxAgg (rs.map (cellAt df.cols targetCol))) "max")
    else if operation = "Trend" then
      let dt := df.cols.headD ""
      let rowsD := df.rows.map
        (fun r => r.set (colIdx df.cols dt) (toDatetime (cellAt df.cols dt r)))
      let gb := groupBy.filter (fun c => ¬ c = dt)
      if groupBy ≠ [] ∧ gb ≠ [] then
        match findAbsent df.cols gb with
        | some c => .error (.keyError c)
        | none =>
          .ok (fillZero (groupAgg df.cols (dt :: gb) rowsD
            (fun rs => sumAgg (rs.map (cellAt df.cols targetCol))) targetCol))
      else
        .ok (fillZero (groupAgg df.cols [dt] rowsD
          (fun rs => sumAgg (rs.map (cellAt df.cols targetCol))) targetCol))
    else .error .unsupported
  else .error (.keyError targetCol)

/-- The trailing numeric cell of a result row (`0` when it is not a number). -/
def lastNum (r : List Value) : ℚ :=
  match r.getLast? with
  | some (.num q) => q
  | _ => 0

/-- The sum of the derived-value column of a summary table. -/
def tableTotal (t : DataFrame) : ℚ :=
  (t.rows.map lastNum).sum

/-- The rows of `df` whose group key for `g` has no missing value (the rows
pandas `groupby(g)` keeps). -/
def presentKeyRows (df : DataFrame) (g : List String) : List (List Value) :=
  df.rows.filter (fun r => (keyOf? df.cols g r).isSome)

/-- The group-key part of each row of a summary table (all cells but the
derived value in the last column). -/
def tableKeys (t : DataFrame) : List (List Value) :=
  t.rows.map (List.take (t.cols.length - 1))

/-- The dataset of the spec's Sum scenario: regions East, West, East with
sales 1, 2, 3. -/
def dfRegion : DataFrame :=
  ⟨["region", "sales"],
   [[.str "East", .num 1], [.str "West", .num 2], [.str "East", .num 3]]⟩

/-- The Sum-scenario dataset with the region order reversed: West, East,
West — West is the first-seen group. -/
def dfRegionWE : DataFrame :=
  ⟨["region", "sales"],
   [[.str "West", .num 1], [.str "East", .num 2], [.str "West", .num 3]]⟩

/-- The dataset of the spec's Trend scenario: three daily sales rows. -/
def dfTrend : DataFrame :=
  ⟨["date", "sales"],
   [[.str "2024-01-01", .num 10], [.str "2024-01-01", .num 5],
    [.str "2024-01-02", .num 7]]⟩

/-- A one-row dataset none of whose cells parses as a timestamp. -/
def dfNoDates : DataFrame :=
  ⟨["t", "value"], [[.str "abc", .str "hello"]]⟩

/-- A one-row, one-column frame (its only column is named `a`). -/
def dfOneCol : DataFrame :=
  ⟨["a"], [[.num 1]]⟩

/-- A one-row frame whose only group-by cell is missing. -/
def dfMissingRegion : DataFrame :=
  ⟨["region"], [[Value.missing]]⟩

/-- A frame with one missing region among three rows. -/
def dfSomeMissing : DataFrame :=
  ⟨["region", "sales"],
   [[.str "East", .num 1], [Value.missing, .num 2], [.str "West", .num 3]]⟩

/-- A frame whose value column is entirely non-numeric text. -/
def dfAllText : DataFrame :=
  ⟨["grp", "val"], [[.str "a", .str "xx"], [.str "b", .str "yy"]]⟩

theorem ratAdd_eq (a b : ℚ) : ratAdd a b = a + b := by
  have ha : (a.den : ℚ) ≠ 0 := by exact_mod_cast a.den_nz
  have hb : (b.den : ℚ) ≠ 0 := by exact_mod_cast b.den_nz
  have Ha : (a.num : ℚ) = a * a.den := (div_eq_iff ha).mp (Rat.num_div_den a)
  have Hb : (b.num : ℚ) = b * b.den := (div_eq_iff hb).mp (Rat.num_div_den b)
  rw [ratAdd, Rat.mkRat_eq_div, div_eq_iff (by push_cast; exact mul_ne_zero ha hb)]
  push_cast
  rw [Ha, Hb]
  ring

theorem ratNeg_eq (a : ℚ) : ratNeg a = -a := by
  rw [ratNeg, Rat.mkRat_eq_div]
  push_cast
  rw [neg_div, Rat.num_div_den]

theorem ratDivNat_eq (a : ℚ) (n : ℕ) : ratDivNat a n = a / (n : ℚ) := by
  rw [ratDivNat, Rat.mkRat_eq_div]
  push_cast
  rw [div_mul_eq_div_div, Rat.num_div_den]

theorem ratSum_eq (l : List ℚ) : ratSum l = l.sum := by
  induction l with
  | nil => rfl
  | cons x xs ih => rw [ratSum, ratAdd_eq, ih, List.sum_cons]

theorem keyOf?_nil (cols : List String) (r : List Value) : keyOf? cols [] r = some [] :=
  rfl

theorem keyOf?_eq_some {cols g : List String} {r k : List Value}
    (h : keyOf? cols g r = some k) :
    k = g.map (fun c => cellAt cols c r) ∧ ∀ v ∈ k, v ≠ Value.missing := by
  simp only [keyOf?] at h
  split at h
  · rename_i hall
    injection h with h
    subst h
    refine ⟨rfl, fun v hv => ?_⟩
    simpa using List.all_eq_true.mp hall v hv
  · exact Option.noConfusion h

theorem keyOf?_length {cols g : List String} {r k : List Value}
    (h : keyOf? cols g r = some k) : k.length = g.length := by
  rw [(keyOf?_eq_some h).1, List.length_map]

theorem groupKeys_mem {cols g : List String} {rows : List (List Value)} {k : List Value}
    (hk : k ∈ groupKeys cols g rows) : ∃ r ∈ rows, keyOf? cols g r = some k := by
  simp only [groupKeys, sortKeys, List.mem_insertionSort, List.mem_dedup] at hk
  exact List.mem_filterMap.mp hk

theorem groupKeys_length {cols g : List String} {rows : List (List Value)} :
    ∀ k ∈ groupKeys cols g rows, k.length = g.length := by
  intro k hk
  obtain ⟨r, _, hr⟩ := groupKeys_mem hk
  exact keyOf?_length hr

theorem groupKeys_nodup (cols g : List String) (rows : List (List Value)) :
    (groupKeys cols g rows).Nodup :=
  ((List.perm_insertionSort keyLe _).nodup_iff).mpr (List.nodup_dedup _)

theorem groupKeys_sorted (cols g : List String) (rows : List (List Value)) :
    List.Sorted keyLe (groupKeys cols g rows) :=
  List.sorted_insertionSort keyLe _

theorem tableKeys_groupAgg (cols g : List String) (rows : List (List Value))
    (f : List (List Value) → Value) (aggName : String) :
    tableKeys (groupAgg cols g rows f aggName) = groupKeys cols g rows := by
  unfold tableKeys groupAgg
  simp only [List.length_append, List.length_singleton, Nat.add_sub_cancel, List.map_map]
  refine (List.map_congr_left ?_).trans (List.map_id _)
  intro k hk
  have hlen : k.length = g.length := groupKeys_length k hk
  show (k ++ [f (groupRows cols g rows k)]).take g.length = k
  rw [← hlen, List.take_left]

theorem tableKeys_fillZero_groupAgg (cols g : List String) (rows : List (List Value))
    (f : List (List Value) → Value) (aggName : String) :
    tableKeys (fillZero (groupAgg cols g rows f aggName)) = groupKeys cols g rows := by
  unfold tableKeys fillZero groupAgg
  simp only [List.length_append, List.length_singleton, Nat.add_sub_cancel, List.map_map]
  refine (List.map_congr_left ?_).trans (List.map_id _)
  intro k hk
  have hlen : k.length = g.length := groupKeys_length k hk
  have hnm : ∀ v ∈ k, v ≠ Value.missing := by
    obtain ⟨r, _, hr⟩ := groupKeys_mem hk
    exact (keyOf?_eq_some hr).2
  show ((k ++ [f (groupRows cols g rows k)]).map
    (fun v => if v = Value.missing then Value.num 0 else v)).take g.length = k
  rw [← List.map_take, ← hlen, List.take_left]
  refine (List.map_congr_left ?_).trans (List.map_id _)
  intro v hv
  simp [hnm v hv]

/-- C9: every summary table `run_analysis` returns — any of the five basic
operations, grouped or not, and Trend whenever it succeeds (a temporal
column was found) — has at most one row per distinct group key: the list of
group-key prefixes of its rows has no duplicate. -/
theorem summary_group_keys_unique (df : DataFrame) (tc op : String)
    (g : List String) (t : DataFrame) (hop : op ∈ availableOperations)
    (hrun : runAnalysis df tc op g = .ok t) :
    (tableKeys t).Nodup := by
  simp only [availableOperations, List.mem_cons, List.not_mem_nil, or_false] at hop
  rcases hop with rfl | rfl | rfl | rfl | rfl | rfl <;>
  · simp only [runAnalysis, String.reduceEq, reduceIte] at hrun
    repeat' split at hrun
    all_goals first
      | exact Except.noConfusion hrun
      | (injection hrun with hrun; subst hrun;
         first
         | (rw [tableKeys_groupAgg]; exact groupKeys_nodup _ _ _)
         | (rw [tableKeys_fillZero_groupAgg]; exact groupKeys_nodup _ _ _)
         | simp [tableKeys])

theorem summary_group_keys_unique_witness :
    (tableKeys ⟨["region", "sum"],
      [[.str "East", .num 4], [.str "West", .num 2]]⟩).Nodup :=
  summary_group_keys_unique dfRegion "sales" "Sum" ["region"]
    ⟨["region", "sum"], [[.str "East", .num 4], [.str "West", .num 2]]⟩
    (by decide) (by decide)

/-- C5: for the dataset `[{date: 2024-01-01, sales: 10}, {date: 2024-01-01,
sales: 5}, {date: 2024-01-02, sales: 7}]`, Trend with empty group-by buckets
the rows by calendar day on the detected temporal column and sums the
numeric-coerced target per day, returning exactly the rows
`(2024-01-01, 15)` and `(2024-01-02, 7)`. -/
theorem trend_daily_scenario :
    runAnalysis dfTrend "sales" "Trend" [] =
      .ok ⟨["date", "sales"],
           [[.date 2024 1 1, .num 15], [.date 2024 1 2, .num 7]]⟩ := by
  decide

/-- C3 (failing input): in `dfNoDates` no cell is timestamp-parseable, yet
Trend with empty group-by returns an *empty* table rather than the one-row
ordinal-fallback table the spec describes: the detection of line 72 accepts
the first column (`pd.to_datetime(..., errors="coerce")` always yields a
datetime64 series), every row's date coerces to `NaT`, and the day-grouper
drops them all. -/
theorem trend_fallback_dead :
    ((dfNoDates.col "t" ++ dfNoDates.col "value").all
      (fun v => toDatetime v = Value.missing)) = true ∧
    runAnalysis dfNoDates "value" "Trend" [] = .ok ⟨["t", "value"], []⟩ ∧
    dfNoDates.rows.length = 1 := by
  decide

/-- C6 (counterexample): on the dataset with regions West, East, West the
grouped Sum lists East before West — ascending key order, not first-seen
order (West is first-seen). -/
theorem sum_groups_not_first_seen :
    runAnalysis dfRegionWE "sales" "Sum" ["region"] =
      .ok ⟨["region", "sum"], [[.str "East", .num 2], [.str "West", .num 4]]⟩ ∧
    runAnalysis dfRegionWE "sales" "Sum" ["region"] ≠
      .ok ⟨["region", "sum"], [[.str "West", .num 4], [.str "East", .num 2]]⟩ := by
  decide

/-- C6 (amended): the Sum scenario on regions East, West, East with sales
1, 2, 3 returns exactly {East, 4} then {West, 2}; in general grouped
results list groups in ascending sorted key order (numeric order for
numbers, lexicographic for text, chronological for timestamps) — which for
East before West coincides with first-seen order. -/
theorem sum_scenario_and_sorted_groups :
    runAnalysis dfRegion "sales" "Sum" ["region"] =
      .ok ⟨["region", "sum"], [[.str "East", .num 4], [.str "West", .num 2]]⟩ ∧
    ∀ df tc g t, runAnalysis df tc "Sum" g = .ok t →
      List.Sorted keyLe (tableKeys t) := by
  refine ⟨by decide, ?_⟩
  intro df tc g t hrun
  simp only [runAnalysis, String.reduceEq, reduceIte] at hrun
  repeat' split at hrun
  all_goals first
    | exact Except.noConfusion hrun
    | (injection hrun with hrun; subst hrun;
       first
       | (rw [tableKeys_groupAgg]; exact groupKeys_sorted _ _ _)
       | simp [tableKeys, List.sorted_singleton])

theorem sum_scenario_and_sorted_groups_witness :
    List.Sorted keyLe (tableKeys ⟨["region", "sum"],
      [[.str "East", .num 2], [.str "West", .num 4]]⟩) :=
  sum_scenario_and_sorted_groups.2 dfRegionWE "sales" ["region"]
    ⟨["region", "sum"], [[.str "East", .num 2], [.str "West", .num 4]]⟩ (by decide)

theorem filterMap_filter_isSome {α κ : Type} (p : α → Option κ) (l : List α) :
    (l.filter (fun r => (p r).isSome)).filterMap p = l.filterMap p := by
  induction l with
  | nil => rfl
  | cons a l ih =>
    cases hp : p a <;>
      simp [List.filter_cons, List.filterMap_cons, hp, ih]

theorem filter_keyEq_of_filter_isSome {α κ : Type} [DecidableEq κ]
    (p : α → Option κ) (k : κ) (l : List α) :
    (l.filter (fun r => (p r).isSome)).filter (fun r => p r = some k)
      = l.filter (fun r => p r = some k) := by
  induction l with
  | nil => rfl
  | cons a l ih =>
    cases hp : p a with
    | none => simp [List.filter_cons, hp, ih]
    | some v => by_cases hv : v = k <;> simp [List.filter_cons, hp, hv, ih]

theorem groupAgg_filter_presentKeys (cols g : List String) (rows : List (List Value))
    (f : List (List Value) → Value) (aggName : String) :
    groupAgg cols g (rows.filter (fun r => (keyOf? cols g r).isSome)) f aggName
      = groupAgg cols g rows f aggName := by
  unfold groupAgg groupKeys groupRows
  rw [filterMap_filter_isSome]
  congr 1
  refine List.map_congr_left fun k hk => ?_
  rw [filter_keyEq_of_filter_isSome]

/-- C10: for the five basic operations with a non-empty group-by list, input
rows with a missing value in any group-by column are silently excluded:
the analysis result equals the result on the dataset restricted to rows
whose group key is fully present, so such rows contribute to no group and
produce no row of their own. -/
theorem grouped_ops_drop_missing_key_rows (df : DataFrame) (tc op : String)
    (g : List String) (hop : op ∈ ["Count", "Sum", "Average", "Min", "Max"])
    (hg : g ≠ []) :
    runAnalysis ⟨df.cols, presentKeyRows df g⟩ tc op g = runAnalysis df tc op g := by
  simp only [List.mem_cons, List.not_mem_nil, or_false] at hop
  rcases hop with rfl | rfl | rfl | rfl | rfl <;>
  · simp only [runAnalysis, String.reduceEq, reduceIte]
    by_cases htc : tc ∈ df.cols
    · simp only [htc, if_true, if_neg hg]
      cases hfa : findAbsent df.cols g <;> simp only [hfa]
      · unfold presentKeyRows
        rw [groupAgg_filter_presentKeys]
    · simp only [htc, if_false]

theorem grouped_ops_drop_missing_key_rows_witness :
    runAnalysis ⟨dfSomeMissing.cols, presentKeyRows dfSomeMissing ["region"]⟩
        "sales" "Sum" ["region"] =
      runAnalysis dfSomeMissing "sales" "Sum" ["region"] ∧
    runAnalysis dfSomeMissing "sales" "Sum" ["region"] =
      .ok ⟨["region", "sum"], [[.str "East", .num 1], [.str "West", .num 3]]⟩ :=
  ⟨grouped_ops_drop_missing_key_rows dfSomeMissing "sales" "Sum" ["region"]
    (by decide) (by decide), by decide⟩

/-- C4 (counterexample): with target column `"x"` absent from the frame, an
unknown operation name raises the `KeyError` of `series = df[target_col]`
(lines 26–30), not the unsupported-operation error. -/
theorem unknown_op_missing_target_keyerror :
    runAnalysis dfOneCol "x" "Foo" [] = .error (.keyError "x") ∧
    (Except.error (AErr.keyError "x") : Except AErr DataFrame) ≠
      .error .unsupported := by
  decide

/-- C1 (counterexample): a one-row dataset whose only group-by cell is
missing yields an empty grouped Count table, so the counts sum to 0 while
the dataset has 1 row. -/
theorem count_total_missing_key_counterexample :
    runAnalysis dfMissingRegion "region" "Count" ["region"] =
      .ok ⟨["region", "count"], []⟩ ∧
    tableTotal ⟨["region", "count"], []⟩ = 0 ∧
    dfMissingRegion.rows.length = 1 := by
  decide

theorem sum_map_ite_eq_zero {κ : Type} [DecidableEq κ] (ks : List κ) (k0 : κ)
    (h : k0 ∉ ks) :
    (ks.map (fun k => if k0 = k then (1 : ℕ) else 0)).sum = 0 := by
  induction ks with
  | nil => rfl
  | cons a t ih =>
    simp only [List.mem_cons, not_or] at h
    simp [h.1, ih h.2]

theorem sum_map_ite_eq_one {κ : Type} [DecidableEq κ] (ks : List κ) (k0 : κ)
    (hnd : ks.Nodup) (hm : k0 ∈ ks) :
    (ks.map (fun k => if k0 = k then (1 : ℕ) else 0)).sum = 1 := by
  induction ks with
  | nil => exact absurd hm (List.not_mem_nil k0)
  | cons a t ih =>
    rcases List.mem_cons.mp hm with rfl | hm'
    · have hnt : k0 ∉ t := (List.nodup_cons.mp hnd).1
      simp [sum_map_ite_eq_zero t k0 hnt]
    · have hne : k0 ≠ a := by
        rintro rfl
        exact (List.nodup_cons.mp hnd).1 hm'
      simp [hne, ih (List.nodup_cons.mp hnd).2 hm']

theorem sum_map_add {α : Type} (l : List α) (f g : α → ℕ) :
    (l.map (fun x => f x + g x)).sum = (l.map f).sum + (l.map g).sum := by
  induction l with
  | nil => rfl
  | cons a t ih =>
    simp only [List.map_cons, List.sum_cons, ih]
    omega

theorem sum_group_sizes {α κ : Type} [DecidableEq κ] (p : α → Option κ)
    (ks : List κ) (hnd : ks.Nodup) (rs : List α)
    (hcov : ∀ r ∈ rs, ∀ k, p r = some k → k ∈ ks) :
    (ks.map (fun k => (rs.filter (fun r => p r = some k)).length)).sum
      = (rs.filter (fun r => (p r).isSome)).length := by
  induction rs with
  | nil => simp
  | cons a t ih =>
    have hct : ∀ r ∈ t, ∀ k, p r = some k → k ∈ ks :=
      fun r hr => hcov r (List.mem_cons_of_mem a hr)
    cases hp : p a with
    | none => simp [List.filter_cons, hp, ih hct]
    | some k0 =>
      have hk0 : k0 ∈ ks := hcov a (List.mem_cons_self a t) k0 hp
      have hstep : ∀ k ∈ ks,
          (List.filter (fun r => p r = some k) (a :: t)).length
            = (t.filter (fun r => p r = some k)).length + (if k0 = k then 1 else 0) := by
        intro k _
        by_cases hk : k0 = k <;> simp [List.filter_cons, hp, hk]
      rw [List.map_congr_left hstep, sum_map_add, ih hct,
        sum_map_ite_eq_one ks k0 hnd hk0]
      simp [List.filter_cons, hp]

/-- C1 (amended): for every dataset and group-by list (columns present), the
Count totals across the result equal the number of input rows whose group
key has no missing value — that is `len(D)` itself whenever the group-by
list is empty or no group-by cell is missing. -/
theorem count_total_present_rows (df : DataFrame) (tc : String) (g : List String)
    (t : DataFrame) (hrun : runAnalysis df tc "Count" g = .ok t) :
    tableTotal t = ((presentKeyRows df g).length : ℚ) := by
  simp only [runAnalysis, String.reduceEq, reduceIte] at hrun
  split at hrun
  · split at hrun
    · rename_i hge
      injection hrun with hrun
      subst hrun
      subst hge
      simp [tableTotal, lastNum, presentKeyRows, keyOf?_nil]
    · split at hrun
      · exact Except.noConfusion hrun
      · injection hrun with hrun
        subst hrun
        unfold tableTotal groupAgg
        simp only [List.map_map, Function.comp_def]
        have hlast : ∀ k ∈ groupKeys df.cols g df.rows,
            lastNum (k ++ [Value.num ((groupRows df.cols g df.rows k).length : ℚ)])
              = (((groupRows df.cols g df.rows k).length : ℕ) : ℚ) := by
          intro k _
          simp [lastNum, List.getLast?_concat]
        rw [List.map_congr_left hlast]
        have hcast :
            (fun k => (((groupRows df.cols g df.rows k).length : ℕ) : ℚ))
              = (fun n : ℕ => (n : ℚ)) ∘ (fun k => (groupRows df.cols g df.rows k).length) :=
          rfl
        rw [hcast, ← List.map_map, ← Nat.cast_list_sum]
        congr 1
        have hperm : List.Perm (groupKeys df.cols g df.rows)
            ((df.rows.filterMap (keyOf? df.cols g)).dedup) :=
          List.perm_insertionSort keyLe _
        rw [(hperm.map _).sum_eq]
        unfold groupRows presentKeyRows
        exact sum_group_sizes (keyOf? df.cols g) _ (List.nodup_dedup _) df.rows
          (fun r hr k hk => List.mem_dedup.mpr (List.mem_filterMap.mpr ⟨r, hr, hk⟩))
  · exact Except.noConfusion hrun

theorem count_total_present_rows_witness :
    tableTotal ⟨["region", "count"], [[.str "East", .num 1], [.str "West", .num 1]]⟩
        = ((presentKeyRows dfSomeMissing ["region"]).length : ℚ) ∧
    (presentKeyRows dfSomeMissing ["region"]).length = 2 :=
  ⟨count_total_present_rows dfSomeMissing "sales" ["region"]
    ⟨["region", "count"], [[.str "East", .num 1], [.str "West", .num 1]]⟩ (by decide),
   by decide⟩

/-- C7: Average yields the missing-value sentinel (pandas `NaN`), not zero
and not an error, for every group — including the whole-dataset group when
the group-by list is empty — in which every target-column value fails
numeric coercion. -/
theorem average_all_unparseable_sentinel (df : DataFrame) (tc : String)
    (g : List String) (htc : tc ∈ df.cols) (hg : ∀ c ∈ g, c ∈ df.cols) :
    ∃ t, runAnalysis df tc "Average" g = .ok t ∧
      ∀ row ∈ t.rows,
        (∀ r ∈ df.rows, keyOf? df.cols g r = some (row.take g.length) →
          coerceNum? (cellAt df.cols tc r) = none) →
        row.getLast? = some Value.missing := by
  have hfa : findAbsent df.cols g = none := by
    rw [findAbsent, List.find?_eq_none]
    intro c hc
    simpa using hg c hc
  by_cases hge : g = []
  · subst hge
    refine ⟨⟨["mean"], [[meanAgg (df.col tc)]]⟩, by simp [runAnalysis, htc], ?_⟩
    intro row hrow hall
    simp only [List.mem_singleton] at hrow
    subst hrow
    have hnil : presentNums (df.col tc) = [] := by
      rw [presentNums, List.filterMap_eq_nil_iff]
      intro v hv
      obtain ⟨r, hr, rfl⟩ := List.mem_map.mp hv
      exact hall r hr (keyOf?_nil df.cols r)
    simp [meanAgg, hnil]
  · refine ⟨groupAgg df.cols g df.rows
      (fun rs => meanAgg (rs.map (cellAt df.cols tc))) "mean", ?_, ?_⟩
    · simp [runAnalysis, htc, hfa, hge]
    · intro row hrow hall
      simp only [groupAgg, List.mem_map] at hrow
      obtain ⟨k, hk, rfl⟩ := hrow
      have hlen : k.length = g.length := groupKeys_length k hk
      have htake :
          (k ++ [meanAgg ((groupRows df.cols g df.rows k).map (cellAt df.cols tc))]).take
            g.length = k := by
        rw [← hlen, List.take_left]
      rw [htake] at hall
      have hnil :
          presentNums ((groupRows df.cols g df.rows k).map (cellAt df.cols tc)) = [] := by
        rw [presentNums, List.filterMap_eq_nil_iff]
        intro v hv
        obtain ⟨r, hr, rfl⟩ := List.mem_map.mp hv
        simp only [groupRows, List.mem_filter] at hr
        exact hall r hr.1 (by simpa using hr.2)
      rw [List.getLast?_concat]
      simp [meanAgg, hnil]

theorem average_all_unparseable_sentinel_witness :
    (∃ t, runAnalysis dfAllText "val" "Average" ["grp"] = .ok t ∧
      ∀ row ∈ t.rows,
        (∀ r ∈ dfAllText.rows, keyOf? dfAllText.cols ["grp"] r = some (row.take (["grp"]).length) →
          coerceNum? (cellAt dfAllText.cols "val" r) = none) →
        row.getLast? = some Value.missing) ∧
    runAnalysis dfAllText "val" "Average" ["grp"] =
      .ok ⟨["grp", "mean"], [[.str "a", Value.missing], [.str "b", Value.missing]]⟩ :=
  ⟨average_all_unparseable_sentinel dfAllText "val" ["grp"] (by decide) (by decide),
   by decide⟩

/-- C8: on a dataset with zero rows (and its target column `x` declared),
Count with empty group-by does not raise and returns the single row
`{count: 0}`. -/
theorem empty_dataset_count (cols : List String) (hx : "x" ∈ cols) :
    runAnalysis ⟨cols, []⟩ "x" "Count" [] = .ok ⟨["count"], [[Value.num 0]]⟩ := by
  simp [runAnalysis, hx]

theorem empty_dataset_count_witness :
    runAnalysis ⟨["x"], []⟩ "x" "Count" [] = .ok ⟨["count"], [[Value.num 0]]⟩ :=
  empty_dataset_count ["x"] (by decide)

/-- C4 (amended): provided the target column exists in the frame, an
operation name outside `available_operations()` makes `run_analysis` raise
the unsupported-operation error, and an operation name inside it never
raises that error (other errors, such as `KeyError` on a group-by column,
remain possible). -/
theorem unsupported_operation_dispatch (df : DataFrame) (tc op : String)
    (g : List String) (htc : tc ∈ df.cols) :
    (op ∉ availableOperations → runAnalysis df tc op g = .error .unsupported) ∧
    (op ∈ availableOperations → runAnalysis df tc op g ≠ .error .unsupported) := by
  constructor
  · intro hop
    simp only [availableOperations, List.mem_cons, List.not_mem_nil, or_false,
      not_or] at hop
    obtain ⟨h1, h2, h3, h4, h5, h6⟩ := hop
    simp [runAnalysis, htc, h1, h2, h3, h4, h5, h6]
  · intro hop
    simp only [availableOperations, List.mem_cons, List.not_mem_nil, or_false] at hop
    rcases hop with rfl | rfl | rfl | rfl | rfl | rfl <;>
      · simp [runAnalysis, htc]
        split <;> first | simp | (split <;> simp)

theorem unsupported_operation_dispatch_witness :
    runAnalysis dfOneCol "a" "Foo" [] = .error .unsupported ∧
    runAnalysis dfOneCol "a" "Count" [] ≠ .error .unsupported :=
  ⟨(unsupported_operation_dispatch dfOneCol "a" "Foo" [] (by decide)).1 (by decide),
   (unsupported_operation_dispatch dfOneCol "a" "Count" [] (by decide)).2 (by decide)⟩

end HealthCareLytics
